import Mathlib

/-!
Verification development for the window / focus-management core of sngrep
(`src/src/tui/widgets/window.c`).

Shallow embedding conventions:
* Widgets are identified by opaque natural-number ids (pointer identity in C).
* `WindowPrivate` mirrors the `WindowPrivate` struct of `window.c`; the
  `PANEL *` handle and the `WindowType` enum value are opaque naturals.
* External widget behaviour (`sng_widget_is_visible`, `sng_widget_key_pressed`,
  `container_find_by_position`, `key_find_action`, ...) is passed in as
  function parameters: those collaborators live outside `window.c`.
* Side effects on widgets (`sng_widget_focus_lost`, `sng_widget_focus_gain`,
  forwarding a key or a click) are recorded as an `Event` trace.
* Fallible / possibly non-terminating C code is embedded in `Option`:
  `none` marks a NULL-pointer dereference or a non-terminating loop.
-/

namespace Sngrep

/-- Widget identity (pointer identity in the C source). -/
abbrev SngWidget := Nat

/-- The `WindowPrivate` struct of `window.c` (lines 38-52): curses panel
handle, window type tag, dirty flag `changed`, focusable widget chain,
default focus widget and currently focused widget. -/
structure WindowPrivate where
  panel : Nat
  type : Nat
  changed : Bool
  focus_chain : List SngWidget
  focus_default : SngWidget
  focus : SngWidget
deriving Repr, DecidableEq

/-- Notifications and forwarded input the window sends to widgets. -/
inductive Event where
  | focusLost (w : SngWidget)
  | focusGained (w : SngWidget)
  | keyPressed (w : SngWidget) (key : Int)
  | clicked (w : SngWidget) (x y : Int)
deriving Repr, DecidableEq

/-- Key dispatch verdicts (`KEY_HANDLED` / `KEY_NOT_HANDLED` / propagate),
as returned by widget key handlers and `window_handle_key`. -/
inductive KeyVerdict where
  | KEY_HANDLED
  | KEY_NOT_HANDLED
  | KEY_PROPAGATED
deriving Repr, DecidableEq

/-- Keybinding actions relevant to `window_handle_key`; every other entry of
the external action table is collapsed into `ACTION_OTHER`. -/
inductive KeybindingAction where
  | ACTION_NEXT_FIELD
  | ACTION_PREV_FIELD
  | ACTION_UNKNOWN
  | ACTION_OTHER (n : Nat)
deriving Repr, DecidableEq

/-- `g_list_find(chain, w)`: index of the first cell holding `w`, `none`
when `w` is not in the list (GLib returns NULL). -/
def g_list_find : List SngWidget → SngWidget → Option Nat
  | [], _ => none
  | x :: xs, w => if x = w then some 0 else (g_list_find xs w).map (· + 1)

/-- `window_set_focused_widget` (window.c lines 138-152): no-op when the
widget already has focus; otherwise notify the old holder it lost focus,
update the focused reference, notify the new holder it gained focus. -/
def window_set_focused_widget (priv : WindowPrivate) (widget : SngWidget) :
    WindowPrivate × List Event :=
  if priv.focus = widget then
    (priv, [])
  else
    ({ priv with focus := widget },
     [Event.focusLost priv.focus, Event.focusGained widget])

/-- The forward step of the `window_focus_next` loop (lines 167-173): when
`current->next` is NULL wrap to the first cell, else advance. On an index
`i < n` this is `i+1`, wrapping to `0` from the last cell. -/
def next_idx (n i : Nat) : Nat := if i + 1 = n then 0 else i + 1

/-- The backward step of the `window_focus_prev` loop (lines 185-191): when
`current->prev` is NULL wrap to the last cell, else step back. -/
def prev_idx (n i : Nat) : Nat := if i = 0 then n - 1 else i - 1

/-- The `do { step } while (!sng_widget_is_visible(current->data))` loop of
`window_focus_next` / `window_focus_prev`, with an explicit step function on
indices. The C loop carries no fuel: it terminates exactly when it reaches a
visible widget. Fuel `chain.length` is exact: a visible chain member is
reached within one full cycle if one exists at all, and with no visible
member the C loop never exits, which the embedding marks by `none`. -/
def scan (vis : SngWidget → Bool) (chain : List SngWidget)
    (step : Nat → Nat) : Nat → Nat → Option Nat
  | _, 0 => none
  | i, fuel + 1 =>
    let j := step i
    if vis (chain.getD j 0) then some j else scan vis chain step j fuel

/-- `window_focus_next` (window.c lines 161-177). `none` embeds undefined
behaviour: when `g_list_find` returns NULL (focus not a chain member, in
particular an empty chain) the C code dereferences `current->next` on a NULL
pointer; when no chain member is visible the do-while loop never terminates. -/
def window_focus_next (vis : SngWidget → Bool) (priv : WindowPrivate) :
    Option (WindowPrivate × List Event) :=
  match g_list_find priv.focus_chain priv.focus with
  | none => none
  | some i =>
    match scan vis priv.focus_chain (next_idx priv.focus_chain.length) i
        priv.focus_chain.length with
    | none => none
    | some j => some (window_set_focused_widget priv (priv.focus_chain.getD j 0))

/-- `window_focus_prev` (window.c lines 179-195), mirror of
`window_focus_next` with the backward step. -/
def window_focus_prev (vis : SngWidget → Bool) (priv : WindowPrivate) :
    Option (WindowPrivate × List Event) :=
  match g_list_find priv.focus_chain priv.focus with
  | none => none
  | some i =>
    match scan vis priv.focus_chain (prev_idx priv.focus_chain.length) i
        priv.focus_chain.length with
    | none => none
    | some j => some (window_set_focused_widget priv (priv.focus_chain.getD j 0))

/-- `k` successive `window_focus_next` calls, threading the window state. -/
def window_focus_next_iter (vis : SngWidget → Bool) :
    Nat → WindowPrivate → Option WindowPrivate
  | 0, priv => some priv
  | k + 1, priv =>
    match window_focus_next vis priv with
    | none => none
    | some (priv2, _) => window_focus_next_iter vis k priv2

/-- `window_handle_key` (window.c lines 351-368): mark the window dirty,
resolve the key through the external action table; `ACTION_NEXT_FIELD` /
`ACTION_PREV_FIELD` run focus navigation and report `KEY_HANDLED`; any other
key is forwarded to the focused widget's key handler. -/
def window_handle_key (vis : SngWidget → Bool)
    (key_find_action : Int → KeybindingAction)
    (key_pressed : SngWidget → Int → KeyVerdict)
    (priv : WindowPrivate) (key : Int) :
    Option (WindowPrivate × KeyVerdict × List Event) :=
  let priv1 := { priv with changed := true }
  match key_find_action key with
  | KeybindingAction.ACTION_NEXT_FIELD =>
    (window_focus_next vis priv1).map
      (fun pe => (pe.1, KeyVerdict.KEY_HANDLED, pe.2))
  | KeybindingAction.ACTION_PREV_FIELD =>
    (window_focus_prev vis priv1).map
      (fun pe => (pe.1, KeyVerdict.KEY_HANDLED, pe.2))
  | _ =>
    some (priv1, key_pressed priv1.focus key,
          [Event.keyPressed priv1.focus key])

/-- `window_handle_mouse` (window.c lines 338-349): mark the window dirty,
hit-test the event position; on a hit transfer focus to the clicked widget
and forward the click, otherwise absorb the event as `KEY_HANDLED`. -/
def window_handle_mouse (find_by_position : Int → Int → Option SngWidget)
    (clicked : SngWidget → Int → Int → KeyVerdict)
    (priv : WindowPrivate) (mx my : Int) :
    WindowPrivate × KeyVerdict × List Event :=
  let priv1 := { priv with changed := true }
  match find_by_position mx my with
  | some cw =>
    let r := window_set_focused_widget priv1 cw
    (r.1, clicked cw mx my, r.2 ++ [Event.clicked cw mx my])
  | none => (priv1, KeyVerdict.KEY_HANDLED, [])

/-- The placement computation of `window_realize` (window.c lines 243-256):
`xpos` (the row passed to `newwin`) is `ABS((maxy - height) / 2)` when the
height differs from the screen rows, `ypos` (the column) is
`ABS((maxx - width) / 2)` when the width differs from the screen columns;
C `/` truncates toward zero, `ABS` is the glib magnitude macro. -/
def window_realize_position (maxy maxx height width : Int) : Int × Int :=
  let xpos : Int := if height ≠ maxy then |Int.tdiv (maxy - height) 2| else 0
  let ypos : Int := if width ≠ maxx then |Int.tdiv (maxx - width) 2| else 0
  (xpos, ypos)

mutual

/-- A widget subtree as `window_update_focus_chain` walks it: the widget's
id, whether `sng_widget_can_focus` holds, and (when it is a container) its
ordered children. -/
inductive SngWidgetTree where
  | node (id : SngWidget) (can_focus : Bool) (children : SngWidgetForest) :
      SngWidgetTree

/-- Ordered child list of a container widget (`container_get_children`). -/
inductive SngWidgetForest where
  | nil : SngWidgetForest
  | cons (t : SngWidgetTree) (ts : SngWidgetForest) : SngWidgetForest

end

mutual

/-- `window_update_focus_chain` (window.c lines 270-288): append the widget
to the focus chain when it can receive focus, then recurse over its
children in order. The chain is threaded as the accumulator;
`g_list_append` adds at the end. -/
def window_update_focus_chain (chain : List SngWidget) :
    SngWidgetTree → List SngWidget
  | SngWidgetTree.node id cf cs =>
    window_update_focus_chain_children
      (if cf then chain ++ [id] else chain) cs

/-- The child loop of `window_update_focus_chain` (lines 283-287). -/
def window_update_focus_chain_children (chain : List SngWidget) :
    SngWidgetForest → List SngWidget
  | SngWidgetForest.nil => chain
  | SngWidgetForest.cons t ts =>
    window_update_focus_chain_children (window_update_focus_chain chain t) ts

end

mutual

/-- Modelled from the spec: the pre-order list of the focusable nodes of a
subtree (the widget itself first, then each child's subtree recursively),
used as the specification side of the refinement for
`window_update_focus_chain`. -/
def focusable_preorder : SngWidgetTree → List SngWidget
  | SngWidgetTree.node id cf cs =>
    (if cf then [id] else []) ++ focusable_preorder_children cs

/-- Pre-order focusable nodes of a forest, child subtrees in order. -/
def focusable_preorder_children : SngWidgetForest → List SngWidget
  | SngWidgetForest.nil => []
  | SngWidgetForest.cons t ts =>
    focusable_preorder t ++ focusable_preorder_children ts

end

/-- Example subtree with 3 focusable widgets (ids 1, 3, 4) and 2
non-focusable widgets (ids 2, 5). -/
def exampleSubtree : SngWidgetTree :=
  SngWidgetTree.node 1 true
    (SngWidgetForest.cons
      (SngWidgetTree.node 2 false
        (SngWidgetForest.cons (SngWidgetTree.node 3 true SngWidgetForest.nil)
          SngWidgetForest.nil))
      (SngWidgetForest.cons
        (SngWidgetTree.node 4 true
          (SngWidgetForest.cons (SngWidgetTree.node 5 false SngWidgetForest.nil)
            SngWidgetForest.nil))
        SngWidgetForest.nil))

/-- One footer cell written by `window_draw_bindings`: start column, field
width of the `%-*s` write, the text, and whether the bold key-label
attribute set was active. -/
structure BindingCell where
  xpos : Nat
  width : Nat
  text : String
  bold : Bool
deriving Repr, DecidableEq

/-- Default cell for out-of-range `List.getD` reads. -/
def dummyCell : BindingCell := { xpos := 0, width := 0, text := "", bold := false }

/-- The cell layout of the `window_draw_bindings` loop (window.c lines
414-425), starting at column `xpos`: the key label is written with field
width `strlen+1` and `xpos` advances by `strlen+1`; the description is
written with field width `strlen+1` and `xpos` advances by `strlen+3`. -/
def window_draw_bindings_cells : Nat → List (String × String) → List BindingCell
  | _, [] => []
  | xpos, (k, d) :: rest =>
    { xpos := xpos, width := k.length + 1, text := k, bold := true } ::
    { xpos := xpos + (k.length + 1), width := d.length + 1, text := d,
      bold := false } ::
    window_draw_bindings_cells (xpos + (k.length + 1) + (d.length + 3)) rest

/-- `window_draw_bindings` (window.c lines 397-429) as its footer cell
layout; `keybindings` is the flat (key-label, description) pair sequence and
the cursor starts at column 0. -/
def window_draw_bindings (keybindings : List (String × String)) :
    List BindingCell :=
  window_draw_bindings_cells 0 keybindings

/-! ### List and `g_list_find` facts -/

theorem getD_mem : ∀ (l : List SngWidget) (i : Nat), i < l.length → l.getD i 0 ∈ l
  | x :: xs, 0, _ => List.mem_cons_self x xs
  | x :: xs, i + 1, h =>
    List.mem_cons_of_mem x (getD_mem xs i (Nat.lt_of_succ_lt_succ h))

theorem mem_getD : ∀ (l : List SngWidget) (w : SngWidget), w ∈ l →
    ∃ i, i < l.length ∧ l.getD i 0 = w := by
  intro l w h
  induction l with
  | nil => cases h
  | cons x xs ih =>
    rcases List.mem_cons.mp h with h1 | h2
    · exact ⟨0, Nat.succ_pos _, h1.symm⟩
    · obtain ⟨i, hi, hget⟩ := ih h2
      exact ⟨i + 1, Nat.succ_lt_succ hi, hget⟩

theorem g_list_find_some : ∀ (l : List SngWidget) (w : SngWidget) (i : Nat),
    g_list_find l w = some i → i < l.length ∧ l.getD i 0 = w := by
  intro l
  induction l with
  | nil => intro w i h; simp [g_list_find] at h
  | cons x xs ih =>
    intro w i h
    by_cases hx : x = w
    · simp [g_list_find, hx] at h
      simp [← h, hx]
    · simp [g_list_find, hx] at h
      obtain ⟨j, hj, hji⟩ := h
      obtain ⟨h1, h2⟩ := ih w j hj
      subst hji
      exact ⟨Nat.succ_lt_succ h1, h2⟩

theorem g_list_find_of_mem : ∀ (l : List SngWidget) (w : SngWidget), w ∈ l →
    ∃ i, g_list_find l w = some i := by
  intro l w h
  induction l with
  | nil => cases h
  | cons x xs ih =>
    by_cases hx : x = w
    · exact ⟨0, by simp [g_list_find, hx]⟩
    · rcases List.mem_cons.mp h with h1 | h2
      · exact absurd h1.symm hx
      · obtain ⟨i, hi⟩ := ih h2
        exact ⟨i + 1, by simp [g_list_find, hx, hi]⟩

theorem g_list_find_getD : ∀ (l : List SngWidget), l.Nodup → ∀ i, i < l.length →
    g_list_find l (l.getD i 0) = some i := by
  intro l
  induction l with
  | nil => intro _ i hi; simp at hi
  | cons x xs ih =>
    intro hnd i hi
    obtain ⟨hx, hxs⟩ := List.nodup_cons.mp hnd
    cases i with
    | zero =>
      rw [List.getD_cons_zero]
      simp [g_list_find]
    | succ j =>
      have hj : j < xs.length := Nat.lt_of_succ_lt_succ hi
      have hne : x ≠ xs.getD j 0 := fun h => hx (h ▸ getD_mem xs j hj)
      rw [List.getD_cons_succ]
      show g_list_find (x :: xs) (xs.getD j 0) = some (j + 1)
      simp only [g_list_find]
      rw [if_neg hne, ih hxs j hj]
      rfl

/-! ### Step-function facts for the navigation loops -/

theorem next_idx_lt (n i : Nat) (h : i < n) : next_idx n i < n := by
  unfold next_idx
  split <;> omega

theorem prev_idx_lt (n i : Nat) (h : i < n) : prev_idx n i < n := by
  unfold prev_idx
  split <;> omega

theorem next_idx_iter_add (n : Nat) :
    ∀ (k i : Nat), i + k < n → (next_idx n)^[k] i = i + k := by
  intro k
  induction k with
  | zero => intro i _; simp
  | succ m ih =>
    intro i h
    rw [Function.iterate_succ_apply]
    have hstep : next_idx n i = i + 1 := by unfold next_idx; split <;> omega
    rw [hstep, ih (i + 1) (by omega)]
    omega

theorem prev_idx_iter_sub (n : Nat) :
    ∀ (k i : Nat), k ≤ i → i < n → (prev_idx n)^[k] i = i - k := by
  intro k
  induction k with
  | zero => intro i _ _; simp
  | succ m ih =>
    intro i hk hi
    rw [Function.iterate_succ_apply]
    have hstep : prev_idx n i = i - 1 := by unfold prev_idx; split <;> omega
    rw [hstep, ih (i - 1) (by omega) (by omega)]
    omega

theorem next_idx_last (n : Nat) (h : 0 < n) : next_idx n (n - 1) = 0 := by
  unfold next_idx
  split <;> omega

theorem prev_idx_zero (n : Nat) : prev_idx n 0 = n - 1 := by
  unfold prev_idx
  simp

theorem next_idx_cycle (n i : Nat) (h : i < n) : (next_idx n)^[n] i = i := by
  have hsplit : n = i + (1 + (n - 1 - i)) := by omega
  calc (next_idx n)^[n] i
      = (next_idx n)^[i + (1 + (n - 1 - i))] i := by rw [← hsplit]
    _ = (next_idx n)^[i] ((next_idx n)^[1] ((next_idx n)^[n - 1 - i] i)) := by
        rw [Function.iterate_add_apply, Function.iterate_add_apply]
    _ = i := by
        rw [next_idx_iter_add n (n - 1 - i) i (by omega)]
        have h1 : i + (n - 1 - i) = n - 1 := by omega
        rw [h1, Function.iterate_one, next_idx_last n (by omega),
          next_idx_iter_add n i 0 (by omega)]
        omega

theorem next_idx_cover (n i m : Nat) (hi : i < n) (hm : m < n) :
    ∃ k, 1 ≤ k ∧ k ≤ n ∧ (next_idx n)^[k] i = m := by
  rcases Nat.lt_or_ge i m with hlt | hge
  · exact ⟨m - i, by omega, by omega, by
      rw [next_idx_iter_add n (m - i) i (by omega)]; omega⟩
  · refine ⟨m + (1 + (n - 1 - i)), by omega, by omega, ?_⟩
    rw [Function.iterate_add_apply, Function.iterate_add_apply,
      next_idx_iter_add n (n - 1 - i) i (by omega)]
    have h1 : i + (n - 1 - i) = n - 1 := by omega
    rw [h1, Function.iterate_one, next_idx_last n (by omega),
      next_idx_iter_add n m 0 (by omega)]
    omega

theorem prev_idx_cover (n i m : Nat) (hi : i < n) (hm : m < n) :
    ∃ k, 1 ≤ k ∧ k ≤ n ∧ (prev_idx n)^[k] i = m := by
  rcases Nat.lt_or_ge m i with hlt | hge
  · exact ⟨i - m, by omega, by omega, by
      rw [prev_idx_iter_sub n (i - m) i (by omega) hi]; omega⟩
  · refine ⟨(n - 1 - m) + (1 + i), by omega, by omega, ?_⟩
    rw [Function.iterate_add_apply, Function.iterate_add_apply,
      prev_idx_iter_sub n i i (by omega) hi]
    have h1 : i - i = 0 := by omega
    rw [h1, Function.iterate_one, prev_idx_zero n,
      prev_idx_iter_sub n (n - 1 - m) (n - 1) (by omega) (by omega)]
    omega

/-! ### Scan loop facts -/

theorem scan_succ (vis : SngWidget → Bool) (chain : List SngWidget)
    (step : Nat → Nat) (i fuel : Nat) :
    scan vis chain step i (fuel + 1) =
      if vis (chain.getD (step i) 0) then some (step i)
      else scan vis chain step (step i) fuel := rfl

theorem scan_sound (vis : SngWidget → Bool) (chain : List SngWidget)
    (step : Nat → Nat) (hstep : ∀ x, x < chain.length → step x < chain.length) :
    ∀ (fuel i j : Nat), i < chain.length →
      scan vis chain step i fuel = some j →
      j < chain.length ∧ vis (chain.getD j 0) = true := by
  intro fuel
  induction fuel with
  | zero => intro i j _ h; simp [scan] at h
  | succ f ih =>
    intro i j hi h
    rw [scan_succ] at h
    by_cases hv : vis (chain.getD (step i) 0) = true
    · rw [if_pos hv] at h
      obtain rfl : step i = j := Option.some.inj h
      exact ⟨hstep i hi, hv⟩
    · rw [if_neg hv] at h
      exact ih (step i) j (hstep i hi) h

theorem scan_complete (vis : SngWidget → Bool) (chain : List SngWidget)
    (step : Nat → Nat) :
    ∀ (fuel i : Nat),
      (∃ k, 1 ≤ k ∧ k ≤ fuel ∧ vis (chain.getD (step^[k] i) 0) = true) →
      ∃ j, scan vis chain step i fuel = some j := by
  intro fuel
  induction fuel with
  | zero => intro i ⟨k, hk1, hk0, _⟩; omega
  | succ f ih =>
    intro i ⟨k, hk1, hkf, hkv⟩
    by_cases hv : vis (chain.getD (step i) 0) = true
    · exact ⟨step i, by rw [scan_succ, if_pos hv]⟩
    · have hk2 : 2 ≤ k := by
        by_contra hlt
        have hk1' : k = 1 := by omega
        subst hk1'
        rw [Function.iterate_one] at hkv
        exact hv hkv
      have hiter : step^[k - 1] (step i) = step^[k] i := by
        conv_rhs => rw [show k = (k - 1) + 1 by omega]
        rw [Function.iterate_succ_apply]
      obtain ⟨j, hj⟩ := ih (step i) ⟨k - 1, by omega, by omega, by rw [hiter]; exact hkv⟩
      exact ⟨j, by rw [scan_succ, if_neg hv]; exact hj⟩

theorem scan_first (vis : SngWidget → Bool) (chain : List SngWidget)
    (step : Nat → Nat) (i fuel : Nat)
    (h : vis (chain.getD (step i) 0) = true) :
    scan vis chain step i (fuel + 1) = some (step i) := by
  rw [scan_succ, if_pos h]

/-! ### Structure of the focus operations -/

theorem window_set_focused_widget_fst (priv : WindowPrivate) (w : SngWidget) :
    (window_set_focused_widget priv w).1 = { priv with focus := w } := by
  unfold window_set_focused_widget
  split
  · rename_i h
    cases priv
    simp_all
  · rfl

theorem window_set_focused_widget_snd (priv : WindowPrivate) (w : SngWidget) :
    (window_set_focused_widget priv w).2 = [] ∨
    (window_set_focused_widget priv w).2 =
      [Event.focusLost priv.focus, Event.focusGained w] := by
  unfold window_set_focused_widget
  split
  · exact Or.inl rfl
  · exact Or.inr rfl

theorem window_focus_next_some (vis : SngWidget → Bool) (priv : WindowPrivate)
    (r : WindowPrivate × List Event) (h : window_focus_next vis priv = some r) :
    ∃ j, j < priv.focus_chain.length ∧ vis (priv.focus_chain.getD j 0) = true ∧
      r = window_set_focused_widget priv (priv.focus_chain.getD j 0) := by
  unfold window_focus_next at h
  split at h
  · cases h
  · rename_i i hfind
    split at h
    · cases h
    · rename_i j hscan
      have hi : i < priv.focus_chain.length := (g_list_find_some _ _ _ hfind).1
      have hsound := scan_sound vis priv.focus_chain
        (next_idx priv.focus_chain.length)
        (fun x hx => next_idx_lt _ x hx) priv.focus_chain.length i j hi hscan
      exact ⟨j, hsound.1, hsound.2, (Option.some.inj h).symm⟩

theorem window_focus_prev_some (vis : SngWidget → Bool) (priv : WindowPrivate)
    (r : WindowPrivate × List Event) (h : window_focus_prev vis priv = some r) :
    ∃ j, j < priv.focus_chain.length ∧ vis (priv.focus_chain.getD j 0) = true ∧
      r = window_set_focused_widget priv (priv.focus_chain.getD j 0) := by
  unfold window_focus_prev at h
  split at h
  · cases h
  · rename_i i hfind
    split at h
    · cases h
    · rename_i j hscan
      have hi : i < priv.focus_chain.length := (g_list_find_some _ _ _ hfind).1
      have hsound := scan_sound vis priv.focus_chain
        (prev_idx priv.focus_chain.length)
        (fun x hx => prev_idx_lt _ x hx) priv.focus_chain.length i j hi hscan
      exact ⟨j, hsound.1, hsound.2, (Option.some.inj h).symm⟩

theorem scan_pos (vis : SngWidget → Bool) (chain : List SngWidget)
    (step : Nat → Nat) (i fuel : Nat) (hfuel : 0 < fuel)
    (h : vis (chain.getD (step i) 0) = true) :
    scan vis chain step i fuel = some (step i) := by
  obtain ⟨f, rfl⟩ : ∃ f, fuel = f + 1 := ⟨fuel - 1, by omega⟩
  exact scan_first vis chain step i f h

theorem window_focus_next_all_visible (vis : SngWidget → Bool)
    (priv : WindowPrivate) (i : Nat)
    (hfind : g_list_find priv.focus_chain priv.focus = some i)
    (hvis : ∀ w ∈ priv.focus_chain, vis w = true) :
    window_focus_next vis priv =
      some (window_set_focused_widget priv
        (priv.focus_chain.getD (next_idx priv.focus_chain.length i) 0)) := by
  have hi : i < priv.focus_chain.length := (g_list_find_some _ _ _ hfind).1
  have hj : next_idx priv.focus_chain.length i < priv.focus_chain.length :=
    next_idx_lt _ _ hi
  have hv : vis (priv.focus_chain.getD (next_idx priv.focus_chain.length i) 0)
      = true := hvis _ (getD_mem _ _ hj)
  have hscan := scan_pos vis priv.focus_chain
    (next_idx priv.focus_chain.length) i priv.focus_chain.length
    (Nat.lt_of_le_of_lt (Nat.zero_le i) hi) hv
  simp only [window_focus_next, hfind, hscan]

theorem window_focus_next_iter_visible (vis : SngWidget → Bool)
    (priv : WindowPrivate) (hnd : priv.focus_chain.Nodup)
    (hvis : ∀ w ∈ priv.focus_chain, vis w = true) :
    ∀ (k i : Nat), i < priv.focus_chain.length →
      window_focus_next_iter vis k
          { priv with focus := priv.focus_chain.getD i 0 } =
        some { priv with focus :=
          priv.focus_chain.getD ((next_idx priv.focus_chain.length)^[k] i) 0 } := by
  intro k
  induction k with
  | zero => intro i hi; rw [Function.iterate_zero]; rfl
  | succ m ih =>
    intro i hi
    have hfind : g_list_find
        ({ priv with focus := priv.focus_chain.getD i 0 } :
          WindowPrivate).focus_chain
        ({ priv with focus := priv.focus_chain.getD i 0 } :
          WindowPrivate).focus = some i :=
      g_list_find_getD _ hnd i hi
    have hstep := window_focus_next_all_visible vis
      { priv with focus := priv.focus_chain.getD i 0 } i hfind hvis
    have hpair : window_set_focused_widget
        { priv with focus := priv.focus_chain.getD i 0 }
        (priv.focus_chain.getD (next_idx priv.focus_chain.length i) 0) =
        ({ priv with focus :=
            priv.focus_chain.getD (next_idx priv.focus_chain.length i) 0 },
         (window_set_focused_widget
            { priv with focus := priv.focus_chain.getD i 0 }
            (priv.focus_chain.getD
              (next_idx priv.focus_chain.length i) 0)).2) :=
      Prod.ext (window_set_focused_widget_fst _ _) rfl
    simp only [window_focus_next_iter]
    rw [hstep, hpair]
    have h2 := ih (next_idx priv.focus_chain.length i) (next_idx_lt _ _ hi)
    rw [← Function.iterate_succ_apply] at h2
    exact h2

/-! ### Claim theorems -/

/-- C1: the claim says `focus_next` / `focus_prev` on an empty chain, a fully
invisible chain, or with a focused widget outside the chain terminate after a
bounded scan, do not dereference past the list, and leave focus unchanged.
The code does the opposite: `g_list_find` returns NULL for a fresh window
(focus is the Window sentinel, chain empty) and `current->next` dereferences
that NULL pointer, and with every chain member invisible the do-while loop
never exits; the embedding returns `none` (crash / divergence) in all these
scenarios instead of a state with unchanged focus. -/
theorem window_focus_navigation_crashes :
    window_focus_next (fun _ => true)
      { panel := 0, type := 0, changed := true, focus_chain := [],
        focus_default := 0, focus := 100 } = none ∧
    window_focus_prev (fun _ => true)
      { panel := 0, type := 0, changed := true, focus_chain := [],
        focus_default := 0, focus := 100 } = none ∧
    window_focus_next (fun _ => true)
      { panel := 0, type := 0, changed := false, focus_chain := [1, 2],
        focus_default := 1, focus := 100 } = none ∧
    window_focus_next (fun _ => false)
      { panel := 0, type := 0, changed := false, focus_chain := [1, 2],
        focus_default := 1, focus := 1 } = none ∧
    window_focus_prev (fun _ => false)
      { panel := 0, type := 0, changed := false, focus_chain := [1, 2],
        focus_default := 1, focus := 1 } = none := by
  decide

/-- C2: `set_focused_widget(w)` with `w` already focused is a no-op with no
notifications; with any other widget it notifies the old holder exactly once,
updates the focused reference to `w`, and notifies `w` exactly once, with the
lose notification preceding the gain notification. -/
theorem window_set_focused_widget_spec (priv : WindowPrivate) (w : SngWidget) :
    (priv.focus = w → window_set_focused_widget priv w = (priv, [])) ∧
    (priv.focus ≠ w →
      window_set_focused_widget priv w =
        ({ priv with focus := w },
         [Event.focusLost priv.focus, Event.focusGained w])) := by
  constructor
  · intro h
    unfold window_set_focused_widget
    rw [if_pos h]
  · intro h
    unfold window_set_focused_widget
    rw [if_neg h]

theorem window_set_focused_widget_spec_witness :
    (window_set_focused_widget
        { panel := 0, type := 0, changed := false, focus_chain := [1, 2],
          focus_default := 1, focus := 1 } 1 =
      ({ panel := 0, type := 0, changed := false, focus_chain := [1, 2],
          focus_default := 1, focus := 1 }, [])) ∧
    (window_set_focused_widget
        { panel := 0, type := 0, changed := false, focus_chain := [1, 2],
          focus_default := 1, focus := 1 } 2 =
      ({ panel := 0, type := 0, changed := false, focus_chain := [1, 2],
          focus_default := 1, focus := 2 },
       [Event.focusLost 1, Event.focusGained 2])) :=
  ⟨(window_set_focused_widget_spec
      { panel := 0, type := 0, changed := false, focus_chain := [1, 2],
        focus_default := 1, focus := 1 } 1).1 rfl,
   (window_set_focused_widget_spec
      { panel := 0, type := 0, changed := false, focus_chain := [1, 2],
        focus_default := 1, focus := 1 } 2).2 (by decide)⟩

/-- C3: on a non-empty, duplicate-free focus chain whose members are all
visible and whose focused widget is a chain member, `chain.length`
applications of `focus_next` return the window to its original state: the
navigation is circular. (Freedom from duplicates is the documented chain
invariant: each widget is attached once.) -/
theorem window_focus_next_circular (vis : SngWidget → Bool)
    (priv : WindowPrivate) (hnd : priv.focus_chain.Nodup)
    (_hne : priv.focus_chain ≠ [])
    (hvis : ∀ w ∈ priv.focus_chain, vis w = true)
    (hmem : priv.focus ∈ priv.focus_chain) :
    window_focus_next_iter vis priv.focus_chain.length priv = some priv := by
  obtain ⟨i, hi, hgd⟩ := mem_getD _ _ hmem
  have heta : { priv with focus := priv.focus_chain.getD i 0 } = priv := by
    rw [hgd]
  have h := window_focus_next_iter_visible vis priv hnd hvis
    priv.focus_chain.length i hi
  rw [next_idx_cycle _ _ hi, heta] at h
  exact h

theorem window_focus_next_circular_witness :
    window_focus_next_iter (fun _ => true) 3
      { panel := 5, type := 1, changed := false, focus_chain := [1, 2, 3],
        focus_default := 1, focus := 2 } =
      some { panel := 5, type := 1, changed := false, focus_chain := [1, 2, 3],
             focus_default := 1, focus := 2 } :=
  window_focus_next_circular (fun _ => true)
    { panel := 5, type := 1, changed := false, focus_chain := [1, 2, 3],
      focus_default := 1, focus := 2 }
    (by decide) (by decide) (by decide) (by decide)

/-- C10: `set_focused_widget`, `focus_next` and `focus_prev` touch only the
currently-focused reference: the panel handle, window type tag, dirty flag,
focus chain and default-focus widget are unchanged; in particular direct
focus navigation does not mark the window dirty. -/
theorem window_focus_ops_frame (vis : SngWidget → Bool) (priv : WindowPrivate)
    (w : SngWidget) :
    ((window_set_focused_widget priv w).1.panel = priv.panel ∧
     (window_set_focused_widget priv w).1.type = priv.type ∧
     (window_set_focused_widget priv w).1.changed = priv.changed ∧
     (window_set_focused_widget priv w).1.focus_chain = priv.focus_chain ∧
     (window_set_focused_widget priv w).1.focus_default = priv.focus_default) ∧
    (∀ p evs, window_focus_next vis priv = some (p, evs) →
      p.panel = priv.panel ∧ p.type = priv.type ∧ p.changed = priv.changed ∧
      p.focus_chain = priv.focus_chain ∧ p.focus_default = priv.focus_default) ∧
    (∀ p evs, window_focus_prev vis priv = some (p, evs) →
      p.panel = priv.panel ∧ p.type = priv.type ∧ p.changed = priv.changed ∧
      p.focus_chain = priv.focus_chain ∧
      p.focus_default = priv.focus_default) := by
  refine ⟨?_, ?_, ?_⟩
  · rw [window_set_focused_widget_fst]
    exact ⟨rfl, rfl, rfl, rfl, rfl⟩
  · intro p evs h
    obtain ⟨j, _, _, hr⟩ := window_focus_next_some vis priv (p, evs) h
    have hp : p = (window_set_focused_widget priv
        (priv.focus_chain.getD j 0)).1 := congrArg Prod.fst hr
    rw [hp, window_set_focused_widget_fst]
    exact ⟨rfl, rfl, rfl, rfl, rfl⟩
  · intro p evs h
    obtain ⟨j, _, _, hr⟩ := window_focus_prev_some vis priv (p, evs) h
    have hp : p = (window_set_focused_widget priv
        (priv.focus_chain.getD j 0)).1 := congrArg Prod.fst hr
    rw [hp, window_set_focused_widget_fst]
    exact ⟨rfl, rfl, rfl, rfl, rfl⟩

theorem window_focus_ops_frame_witness :
    window_focus_next (fun _ => true)
      { panel := 3, type := 4, changed := false, focus_chain := [1, 2],
        focus_default := 1, focus := 1 } =
      some ({ panel := 3, type := 4, changed := false, focus_chain := [1, 2],
              focus_default := 1, focus := 2 },
            [Event.focusLost 1, Event.focusGained 2]) ∧
    ({ panel := 3, type := 4, changed := false, focus_chain := [1, 2],
       focus_default := 1, focus := 2 } : WindowPrivate).changed =
      ({ panel := 3, type := 4, changed := false, focus_chain := [1, 2],
         focus_default := 1, focus := 1 } : WindowPrivate).changed :=
  ⟨by decide,
   ((window_focus_ops_frame (fun _ => true)
      { panel := 3, type := 4, changed := false, focus_chain := [1, 2],
        focus_default := 1, focus := 1 } 0).2.1
      { panel := 3, type := 4, changed := false, focus_chain := [1, 2],
        focus_default := 1, focus := 2 }
      [Event.focusLost 1, Event.focusGained 2] (by decide)).2.2.1⟩

/-- C4: when the focused widget is a chain member and some other chain member
is visible, the widget focused after `focus_next()` or `focus_prev()` is
always visible (hidden widgets are skipped); in particular on the chain
[A(visible), B(hidden), C(visible)] with focus on A, `focus_next()` moves
focus to C, and a further `focus_next()` wraps back to A. -/
theorem window_focus_skip_hidden :
    (∀ (vis : SngWidget → Bool) (priv : WindowPrivate),
      priv.focus ∈ priv.focus_chain →
      (∃ v ∈ priv.focus_chain, v ≠ priv.focus ∧ vis v = true) →
      (∃ p evs, window_focus_next vis priv = some (p, evs) ∧
        vis p.focus = true) ∧
      (∃ p evs, window_focus_prev vis priv = some (p, evs) ∧
        vis p.focus = true)) ∧
    window_focus_next (fun w => w != 20)
      { panel := 0, type := 0, changed := false, focus_chain := [10, 20, 30],
        focus_default := 10, focus := 10 } =
      some ({ panel := 0, type := 0, changed := false,
              focus_chain := [10, 20, 30], focus_default := 10, focus := 30 },
            [Event.focusLost 10, Event.focusGained 30]) ∧
    window_focus_next (fun w => w != 20)
      { panel := 0, type := 0, changed := false, focus_chain := [10, 20, 30],
        focus_default := 10, focus := 30 } =
      some ({ panel := 0, type := 0, changed := false,
              focus_chain := [10, 20, 30], focus_default := 10, focus := 10 },
            [Event.focusLost 30, Event.focusGained 10]) := by
  refine ⟨?_, by decide, by decide⟩
  intro vis priv hmem hex
  obtain ⟨i, hfind⟩ := g_list_find_of_mem _ _ hmem
  have hi : i < priv.focus_chain.length := (g_list_find_some _ _ _ hfind).1
  obtain ⟨v, hvmem, _, hvvis⟩ := hex
  obtain ⟨m, hm, hgdm⟩ := mem_getD _ _ hvmem
  constructor
  · obtain ⟨k, hk1, hkn, hkeq⟩ :=
      next_idx_cover priv.focus_chain.length i m hi hm
    obtain ⟨j, hj⟩ := scan_complete vis priv.focus_chain
      (next_idx priv.focus_chain.length) priv.focus_chain.length i
      ⟨k, hk1, hkn, by rw [hkeq, hgdm]; exact hvvis⟩
    have heq : window_focus_next vis priv =
        some (window_set_focused_widget priv (priv.focus_chain.getD j 0)) := by
      simp only [window_focus_next, hfind, hj]
    have hsound := scan_sound vis priv.focus_chain
      (next_idx priv.focus_chain.length)
      (fun x hx => next_idx_lt _ x hx) priv.focus_chain.length i j hi hj
    refine ⟨(window_set_focused_widget priv (priv.focus_chain.getD j 0)).1,
            (window_set_focused_widget priv (priv.focus_chain.getD j 0)).2,
            heq, ?_⟩
    rw [window_set_focused_widget_fst]
    exact hsound.2
  · obtain ⟨k, hk1, hkn, hkeq⟩ :=
      prev_idx_cover priv.focus_chain.length i m hi hm
    obtain ⟨j, hj⟩ := scan_complete vis priv.focus_chain
      (prev_idx priv.focus_chain.length) priv.focus_chain.length i
      ⟨k, hk1, hkn, by rw [hkeq, hgdm]; exact hvvis⟩
    have heq : window_focus_prev vis priv =
        some (window_set_focused_widget priv (priv.focus_chain.getD j 0)) := by
      simp only [window_focus_prev, hfind, hj]
    have hsound := scan_sound vis priv.focus_chain
      (prev_idx priv.focus_chain.length)
      (fun x hx => prev_idx_lt _ x hx) priv.focus_chain.length i j hi hj
    refine ⟨(window_set_focused_widget priv (priv.focus_chain.getD j 0)).1,
            (window_set_focused_widget priv (priv.focus_chain.getD j 0)).2,
            heq, ?_⟩
    rw [window_set_focused_widget_fst]
    exact hsound.2

theorem window_focus_skip_hidden_witness :
    (∃ p evs, window_focus_next (fun w => w != 20)
        { panel := 0, type := 0, changed := false,
          focus_chain := [10, 20, 30], focus_default := 10, focus := 10 } =
        some (p, evs) ∧ (fun w => w != 20) p.focus = true) ∧
    (∃ p evs, window_focus_prev (fun w => w != 20)
        { panel := 0, type := 0, changed := false,
          focus_chain := [10, 20, 30], focus_default := 10, focus := 10 } =
        some (p, evs) ∧ (fun w => w != 20) p.focus = true) :=
  window_focus_skip_hidden.1 (fun w => w != 20)
    { panel := 0, type := 0, changed := false, focus_chain := [10, 20, 30],
      focus_default := 10, focus := 10 }
    (by decide) ⟨30, by decide⟩

theorem window_update_focus_chain_appends (t : SngWidgetTree) :
    ∀ chain, window_update_focus_chain chain t =
      chain ++ focusable_preorder t := by
  refine @SngWidgetTree.rec
    (fun t => ∀ chain,
      window_update_focus_chain chain t = chain ++ focusable_preorder t)
    (fun ts => ∀ chain,
      window_update_focus_chain_children chain ts =
        chain ++ focusable_preorder_children ts)
    ?_ ?_ ?_ t
  · intro id cf cs ih chain
    rw [window_update_focus_chain, focusable_preorder, ih]
    cases cf
    · simp
    · simp
  · intro chain
    rw [window_update_focus_chain_children, focusable_preorder_children,
      List.append_nil]
  · intro t' ts ih1 ih2 chain
    rw [window_update_focus_chain_children, focusable_preorder_children,
      ih2, ih1, List.append_assoc]

/-- C5: attaching a widget subtree appends to the focus chain exactly the
subtree's focusable nodes, in pre-order (the widget first, then each child's
subtree recursively), leaving previously appended entries unchanged; the
example subtree with 3 focusable and 2 non-focusable widgets adds exactly
3 entries. -/
theorem window_update_focus_chain_spec :
    (∀ (chain : List SngWidget) (t : SngWidgetTree),
      window_update_focus_chain chain t = chain ++ focusable_preorder t) ∧
    window_update_focus_chain [101, 102] exampleSubtree =
      [101, 102] ++ [1, 3, 4] ∧
    (focusable_preorder exampleSubtree).length = 3 :=
  ⟨fun chain t => window_update_focus_chain_appends t chain,
   by rfl, by rfl⟩

theorem window_focus_next_changed (vis : SngWidget → Bool)
    (priv p : WindowPrivate) (evs : List Event)
    (h : window_focus_next vis priv = some (p, evs)) :
    p.changed = priv.changed := by
  obtain ⟨j, _, _, hr⟩ := window_focus_next_some vis priv (p, evs) h
  have hp : p = (window_set_focused_widget priv
      (priv.focus_chain.getD j 0)).1 := congrArg Prod.fst hr
  rw [hp, window_set_focused_widget_fst]

theorem window_focus_prev_changed (vis : SngWidget → Bool)
    (priv p : WindowPrivate) (evs : List Event)
    (h : window_focus_prev vis priv = some (p, evs)) :
    p.changed = priv.changed := by
  obtain ⟨j, _, _, hr⟩ := window_focus_prev_some vis priv (p, evs) h
  have hp : p = (window_set_focused_widget priv
      (priv.focus_chain.getD j 0)).1 := congrArg Prod.fst hr
  rw [hp, window_set_focused_widget_fst]

theorem window_focus_next_events (vis : SngWidget → Bool)
    (priv p : WindowPrivate) (evs : List Event)
    (h : window_focus_next vis priv = some (p, evs)) :
    evs = [] ∨ ∃ a b, evs = [Event.focusLost a, Event.focusGained b] := by
  obtain ⟨j, _, _, hr⟩ := window_focus_next_some vis priv (p, evs) h
  have hevs : evs = (window_set_focused_widget priv
      (priv.focus_chain.getD j 0)).2 := congrArg Prod.snd hr
  rcases window_set_focused_widget_snd priv (priv.focus_chain.getD j 0) with
    h2 | h2
  · exact Or.inl (hevs.trans h2)
  · exact Or.inr ⟨priv.focus, priv.focus_chain.getD j 0, hevs.trans h2⟩

theorem window_focus_prev_events (vis : SngWidget → Bool)
    (priv p : WindowPrivate) (evs : List Event)
    (h : window_focus_prev vis priv = some (p, evs)) :
    evs = [] ∨ ∃ a b, evs = [Event.focusLost a, Event.focusGained b] := by
  obtain ⟨j, _, _, hr⟩ := window_focus_prev_some vis priv (p, evs) h
  have hevs : evs = (window_set_focused_widget priv
      (priv.focus_chain.getD j 0)).2 := congrArg Prod.snd hr
  rcases window_set_focused_widget_snd priv (priv.focus_chain.getD j 0) with
    h2 | h2
  · exact Or.inl (hevs.trans h2)
  · exact Or.inr ⟨priv.focus, priv.focus_chain.getD j 0, hevs.trans h2⟩

/-- C6: `handle_key` always marks the resulting window state dirty; when the
external action table maps the key to next-field / previous-field it runs the
corresponding focus navigation and answers `KEY_HANDLED` without ever
forwarding the key to the focused widget; any other key is forwarded to the
focused widget's key handler and that handler's verdict is returned. -/
theorem window_handle_key_spec (vis : SngWidget → Bool)
    (key_find_action : Int → KeybindingAction)
    (key_pressed : SngWidget → Int → KeyVerdict)
    (priv : WindowPrivate) (key : Int) :
    (∀ p v evs,
      window_handle_key vis key_find_action key_pressed priv key =
        some (p, v, evs) → p.changed = true) ∧
    (key_find_action key = KeybindingAction.ACTION_NEXT_FIELD →
      window_handle_key vis key_find_action key_pressed priv key =
        (window_focus_next vis { priv with changed := true }).map
          (fun pe => (pe.1, KeyVerdict.KEY_HANDLED, pe.2)) ∧
      (∀ p v evs,
        window_handle_key vis key_find_action key_pressed priv key =
          some (p, v, evs) →
        v = KeyVerdict.KEY_HANDLED ∧ ∀ w k, Event.keyPressed w k ∉ evs)) ∧
    (key_find_action key = KeybindingAction.ACTION_PREV_FIELD →
      window_handle_key vis key_find_action key_pressed priv key =
        (window_focus_prev vis { priv with changed := true }).map
          (fun pe => (pe.1, KeyVerdict.KEY_HANDLED, pe.2)) ∧
      (∀ p v evs,
        window_handle_key vis key_find_action key_pressed priv key =
          some (p, v, evs) →
        v = KeyVerdict.KEY_HANDLED ∧ ∀ w k, Event.keyPressed w k ∉ evs)) ∧
    (key_find_action key ≠ KeybindingAction.ACTION_NEXT_FIELD →
     key_find_action key ≠ KeybindingAction.ACTION_PREV_FIELD →
      window_handle_key vis key_find_action key_pressed priv key =
        some ({ priv with changed := true },
              key_pressed priv.focus key,
              [Event.keyPressed priv.focus key])) := by
  have hnext : key_find_action key = KeybindingAction.ACTION_NEXT_FIELD →
      window_handle_key vis key_find_action key_pressed priv key =
        (window_focus_next vis { priv with changed := true }).map
          (fun pe => (pe.1, KeyVerdict.KEY_HANDLED, pe.2)) := by
    intro h
    simp only [window_handle_key, h]
  have hprev : key_find_action key = KeybindingAction.ACTION_PREV_FIELD →
      window_handle_key vis key_find_action key_pressed priv key =
        (window_focus_prev vis { priv with changed := true }).map
          (fun pe => (pe.1, KeyVerdict.KEY_HANDLED, pe.2)) := by
    intro h
    simp only [window_handle_key, h]
  refine ⟨?_, ?_, ?_, ?_⟩
  · intro p v evs h
    cases hact : key_find_action key with
    | ACTION_NEXT_FIELD =>
      rw [hnext hact] at h
      obtain ⟨⟨p', evs'⟩, hfn, hfe⟩ := Option.map_eq_some'.mp h
      have hp : p' = p := congrArg (fun t => t.1) hfe
      rw [← hp, window_focus_next_changed vis _ p' evs' hfn]
    | ACTION_PREV_FIELD =>
      rw [hprev hact] at h
      obtain ⟨⟨p', evs'⟩, hfn, hfe⟩ := Option.map_eq_some'.mp h
      have hp : p' = p := congrArg (fun t => t.1) hfe
      rw [← hp, window_focus_prev_changed vis _ p' evs' hfn]
    | ACTION_UNKNOWN =>
      simp only [window_handle_key, hact] at h
      have hp : ({ priv with changed := true } : WindowPrivate) = p :=
        congrArg (fun t => t.1) (Option.some.inj h)
      rw [← hp]
    | ACTION_OTHER n =>
      simp only [window_handle_key, hact] at h
      have hp : ({ priv with changed := true } : WindowPrivate) = p :=
        congrArg (fun t => t.1) (Option.some.inj h)
      rw [← hp]
  · intro hact
    refine ⟨hnext hact, ?_⟩
    intro p v evs h
    rw [hnext hact] at h
    obtain ⟨⟨p', evs'⟩, hfn, hfe⟩ := Option.map_eq_some'.mp h
    have hv : KeyVerdict.KEY_HANDLED = v := congrArg (fun t => t.2.1) hfe
    have hevs : evs' = evs := congrArg (fun t => t.2.2) hfe
    refine ⟨hv.symm, ?_⟩
    intro w k hmem
    rcases window_focus_next_events vis _ p' evs' hfn with h2 | ⟨a, b, h2⟩ <;>
      rw [hevs] at h2 <;> rw [h2] at hmem <;> simp at hmem
  · intro hact
    refine ⟨hprev hact, ?_⟩
    intro p v evs h
    rw [hprev hact] at h
    obtain ⟨⟨p', evs'⟩, hfn, hfe⟩ := Option.map_eq_some'.mp h
    have hv : KeyVerdict.KEY_HANDLED = v := congrArg (fun t => t.2.1) hfe
    have hevs : evs' = evs := congrArg (fun t => t.2.2) hfe
    refine ⟨hv.symm, ?_⟩
    intro w k hmem
    rcases window_focus_prev_events vis _ p' evs' hfn with h2 | ⟨a, b, h2⟩ <;>
      rw [hevs] at h2 <;> rw [h2] at hmem <;> simp at hmem
  · intro h1 h2
    cases hact : key_find_action key with
    | ACTION_NEXT_FIELD => exact absurd hact h1
    | ACTION_PREV_FIELD => exact absurd hact h2
    | ACTION_UNKNOWN => simp only [window_handle_key, hact]
    | ACTION_OTHER n => simp only [window_handle_key, hact]

theorem window_handle_key_spec_witness :
    (window_handle_key (fun _ => true)
        (fun k => if k = 9 then KeybindingAction.ACTION_NEXT_FIELD
                  else KeybindingAction.ACTION_UNKNOWN)
        (fun _ _ => KeyVerdict.KEY_NOT_HANDLED)
        { panel := 0, type := 0, changed := false, focus_chain := [1, 2],
          focus_default := 1, focus := 1 } 9 =
      (window_focus_next (fun _ => true)
          { panel := 0, type := 0, changed := true, focus_chain := [1, 2],
            focus_default := 1, focus := 1 }).map
        (fun pe => (pe.1, KeyVerdict.KEY_HANDLED, pe.2))) ∧
    (window_handle_key (fun _ => true)
        (fun k => if k = 9 then KeybindingAction.ACTION_NEXT_FIELD
                  else KeybindingAction.ACTION_UNKNOWN)
        (fun _ _ => KeyVerdict.KEY_NOT_HANDLED)
        { panel := 0, type := 0, changed := false, focus_chain := [1, 2],
          focus_default := 1, focus := 1 } 7 =
      some ({ panel := 0, type := 0, changed := true, focus_chain := [1, 2],
              focus_default := 1, focus := 1 },
            KeyVerdict.KEY_NOT_HANDLED, [Event.keyPressed 1 7])) :=
  ⟨((window_handle_key_spec (fun _ => true)
      (fun k => if k = 9 then KeybindingAction.ACTION_NEXT_FIELD
                else KeybindingAction.ACTION_UNKNOWN)
      (fun _ _ => KeyVerdict.KEY_NOT_HANDLED)
      { panel := 0, type := 0, changed := false, focus_chain := [1, 2],
        focus_default := 1, focus := 1 } 9).2.1 (by decide)).1,
   (window_handle_key_spec (fun _ => true)
      (fun k => if k = 9 then KeybindingAction.ACTION_NEXT_FIELD
                else KeybindingAction.ACTION_UNKNOWN)
      (fun _ _ => KeyVerdict.KEY_NOT_HANDLED)
      { panel := 0, type := 0, changed := false, focus_chain := [1, 2],
        focus_default := 1, focus := 1 } 7).2.2.2 (by decide) (by decide)⟩

/-- C7: `handle_mouse` always marks the window dirty; when the hit-test finds
no widget at the event coordinates it answers `KEY_HANDLED` and leaves the
focused widget unchanged; when a widget is hit, focus is transferred to it
through `set_focused_widget` and then the click is forwarded to it (the
focus-transfer notifications precede the forwarded click in the event
trace), returning the widget's verdict. -/
theorem window_handle_mouse_spec
    (find_by_position : Int → Int → Option SngWidget)
    (clicked : SngWidget → Int → Int → KeyVerdict)
    (priv : WindowPrivate) (mx my : Int) :
    (window_handle_mouse find_by_position clicked priv mx my).1.changed
      = true ∧
    (find_by_position mx my = none →
      window_handle_mouse find_by_position clicked priv mx my =
        ({ priv with changed := true }, KeyVerdict.KEY_HANDLED, []) ∧
      (window_handle_mouse find_by_position clicked priv mx my).1.focus =
        priv.focus) ∧
    (∀ cw, find_by_position mx my = some cw →
      (window_handle_mouse find_by_position clicked priv mx my).1 =
        { priv with changed := true, focus := cw } ∧
      (window_handle_mouse find_by_position clicked priv mx my).2.1 =
        clicked cw mx my ∧
      (window_handle_mouse find_by_position clicked priv mx my).2.2 =
        (window_set_focused_widget { priv with changed := true } cw).2 ++
          [Event.clicked cw mx my]) := by
  refine ⟨?_, ?_, ?_⟩
  · cases hf : find_by_position mx my with
    | none => simp only [window_handle_mouse, hf]
    | some cw =>
      simp only [window_handle_mouse, hf]
      rw [window_set_focused_widget_fst]
  · intro hf
    simp [window_handle_mouse, hf]
  · intro cw hf
    simp [window_handle_mouse, hf, window_set_focused_widget_fst]

theorem window_handle_mouse_spec_witness :
    (window_handle_mouse (fun _ _ => none)
        (fun _ _ _ => KeyVerdict.KEY_PROPAGATED)
        { panel := 0, type := 0, changed := false, focus_chain := [1, 2],
          focus_default := 1, focus := 1 } 5 6 =
      ({ panel := 0, type := 0, changed := true, focus_chain := [1, 2],
         focus_default := 1, focus := 1 },
       KeyVerdict.KEY_HANDLED, []) ∧
     (window_handle_mouse (fun _ _ => none)
        (fun _ _ _ => KeyVerdict.KEY_PROPAGATED)
        { panel := 0, type := 0, changed := false, focus_chain := [1, 2],
          focus_default := 1, focus := 1 } 5 6).1.focus = 1) ∧
    (window_handle_mouse (fun _ _ => some 2)
        (fun _ _ _ => KeyVerdict.KEY_PROPAGATED)
        { panel := 0, type := 0, changed := false, focus_chain := [1, 2],
          focus_default := 1, focus := 1 } 5 6).1 =
      { panel := 0, type := 0, changed := true, focus_chain := [1, 2],
        focus_default := 1, focus := 2 } :=
  ⟨(window_handle_mouse_spec (fun _ _ => none)
      (fun _ _ _ => KeyVerdict.KEY_PROPAGATED)
      { panel := 0, type := 0, changed := false, focus_chain := [1, 2],
        focus_default := 1, focus := 1 } 5 6).2.1 rfl,
   ((window_handle_mouse_spec (fun _ _ => some 2)
      (fun _ _ _ => KeyVerdict.KEY_PROPAGATED)
      { panel := 0, type := 0, changed := false, focus_chain := [1, 2],
        focus_default := 1, focus := 1 } 5 6).2.2 2 rfl).1⟩

theorem abs_tdiv_two (d : Int) :
    |Int.tdiv d 2| = ((d.natAbs / 2 : Nat) : Int) := by
  rw [Int.abs_eq_natAbs, Int.natAbs_tdiv]
  rfl

/-- C8: per axis, the placement offset computed by `window_realize` is 0 when
the window dimension equals the screen dimension and otherwise the absolute
value of the C-truncated quotient `(screen - window) / 2`; it always equals
`|screen - window| / 2` (magnitude, floor division) and is never negative,
even when the window is larger than the screen; the row offset is computed
from the height/rows difference and the column offset from the
width/columns difference, exactly as the source assigns them. -/
theorem window_realize_centering (maxy maxx height width : Int) :
    (window_realize_position maxy maxx height width).1 =
      (((maxy - height).natAbs / 2 : Nat) : Int) ∧
    (window_realize_position maxy maxx height width).2 =
      (((maxx - width).natAbs / 2 : Nat) : Int) ∧
    0 ≤ (window_realize_position maxy maxx height width).1 ∧
    0 ≤ (window_realize_position maxy maxx height width).2 ∧
    (height = maxy → (window_realize_position maxy maxx height width).1 = 0) ∧
    (height ≠ maxy → (window_realize_position maxy maxx height width).1 =
      |Int.tdiv (maxy - height) 2|) ∧
    (width = maxx → (window_realize_position maxy maxx height width).2 = 0) ∧
    (width ≠ maxx → (window_realize_position maxy maxx height width).2 =
      |Int.tdiv (maxx - width) 2|) := by
  have h1 : (window_realize_position maxy maxx height width).1 =
      (((maxy - height).natAbs / 2 : Nat) : Int) := by
    by_cases h : height = maxy
    · simp [window_realize_position, h]
    · simp [window_realize_position, h, abs_tdiv_two]
  have h2 : (window_realize_position maxy maxx height width).2 =
      (((maxx - width).natAbs / 2 : Nat) : Int) := by
    by_cases h : width = maxx
    · simp [window_realize_position, h]
    · simp [window_realize_position, h, abs_tdiv_two]
  refine ⟨h1, h2, ?_, ?_, ?_, ?_, ?_, ?_⟩
  · rw [h1]; exact Int.natCast_nonneg _
  · rw [h2]; exact Int.natCast_nonneg _
  · intro h; simp [window_realize_position, h]
  · intro h; simp [window_realize_position, h]
  · intro h; simp [window_realize_position, h]
  · intro h; simp [window_realize_position, h]

theorem window_realize_centering_witness :
    (window_realize_position 10 80 4 90).1 = ((10 - 4 : Int).natAbs / 2 : Nat) ∧
    (4 : Int) ≠ 10 ∧
    (window_realize_position 10 80 4 90).1 = |Int.tdiv (10 - 4) 2| ∧
    (90 : Int) ≠ 80 ∧
    (window_realize_position 10 80 4 90).2 = |Int.tdiv (80 - 90) 2| ∧
    (window_realize_position 10 10 10 10).1 = 0 ∧
    (window_realize_position 10 10 10 10).2 = 0 :=
  ⟨(window_realize_centering 10 80 4 90).1,
   by decide,
   (window_realize_centering 10 80 4 90).2.2.2.2.2.1 (by decide),
   by decide,
   (window_realize_centering 10 80 4 90).2.2.2.2.2.2.2 (by decide),
   (window_realize_centering 10 10 10 10).2.2.2.2.1 rfl,
   (window_realize_centering 10 10 10 10).2.2.2.2.2.2.1 rfl⟩

theorem cells_cons (x : Nat) (k d : String) (rest : List (String × String)) :
    window_draw_bindings_cells x ((k, d) :: rest) =
      { xpos := x, width := k.length + 1, text := k, bold := true } ::
      { xpos := x + (k.length + 1), width := d.length + 1, text := d,
        bold := false } ::
      window_draw_bindings_cells (x + (k.length + 1) + (d.length + 3)) rest :=
  rfl

theorem bindingCell_getD_cons_two (a b : BindingCell) (l : List BindingCell)
    (n : Nat) : (a :: b :: l).getD (n + 2) dummyCell = l.getD n dummyCell :=
  rfl

/-- C9 (amended): in the footer layout of `draw_bindings` each description
cell starts immediately after its key-label cell's padded width
(label length + 1), but each key-label cell after the first starts two
columns past the previous description cell's padded width: the loop advances
the cursor by the description's length plus three. -/
theorem window_draw_bindings_layout :
    ∀ (ps : List (String × String)) (x j : Nat),
      (2 * j + 1 < (window_draw_bindings_cells x ps).length →
        ((window_draw_bindings_cells x ps).getD (2 * j + 1) dummyCell).xpos =
          ((window_draw_bindings_cells x ps).getD (2 * j) dummyCell).xpos +
          ((window_draw_bindings_cells x ps).getD (2 * j) dummyCell).width) ∧
      (2 * j + 2 < (window_draw_bindings_cells x ps).length →
        ((window_draw_bindings_cells x ps).getD (2 * j + 2) dummyCell).xpos =
          ((window_draw_bindings_cells x ps).getD (2 * j + 1) dummyCell).xpos +
          ((window_draw_bindings_cells x ps).getD (2 * j + 1) dummyCell).width
            + 2) := by
  intro ps
  induction ps with
  | nil =>
    intro x j
    constructor <;> intro h <;> simp [window_draw_bindings_cells] at h
  | cons p rest ih =>
    obtain ⟨k, d⟩ := p
    intro x j
    cases j with
    | zero =>
      constructor
      · intro _
        simp [cells_cons, dummyCell]
      · intro h
        cases rest with
        | nil => simp [cells_cons, window_draw_bindings_cells] at h
        | cons q rest2 =>
          obtain ⟨k2, d2⟩ := q
          simp [cells_cons, dummyCell]
          omega
    | succ j' =>
      have e1 : 2 * (j' + 1) = 2 * j' + 2 := by ring
      constructor
      · intro h
        rw [e1] at h ⊢
        rw [cells_cons] at h ⊢
        rw [show 2 * j' + 2 + 1 = (2 * j' + 1) + 2 from by omega] at h ⊢
        rw [bindingCell_getD_cons_two, bindingCell_getD_cons_two]
        simp only [List.length_cons] at h
        exact (ih _ j').1 (by omega)
      · intro h
        rw [e1] at h ⊢
        rw [cells_cons] at h ⊢
        rw [show 2 * j' + 2 + 2 = (2 * j' + 2) + 2 from by omega] at h ⊢
        rw [show 2 * j' + 2 + 1 = (2 * j' + 1) + 2 from by omega]
        rw [bindingCell_getD_cons_two, bindingCell_getD_cons_two]
        simp only [List.length_cons] at h
        exact (ih _ j').2 (by omega)

theorem window_draw_bindings_layout_witness :
    (2 * 0 + 1 <
        (window_draw_bindings_cells 0 [("a", "b"), ("c", "d")]).length →
      ((window_draw_bindings_cells 0 [("a", "b"), ("c", "d")]).getD
          (2 * 0 + 1) dummyCell).xpos =
        ((window_draw_bindings_cells 0 [("a", "b"), ("c", "d")]).getD
            (2 * 0) dummyCell).xpos +
        ((window_draw_bindings_cells 0 [("a", "b"), ("c", "d")]).getD
            (2 * 0) dummyCell).width) ∧
    (2 * 0 + 2 <
        (window_draw_bindings_cells 0 [("a", "b"), ("c", "d")]).length →
      ((window_draw_bindings_cells 0 [("a", "b"), ("c", "d")]).getD
          (2 * 0 + 2) dummyCell).xpos =
        ((window_draw_bindings_cells 0 [("a", "b"), ("c", "d")]).getD
            (2 * 0 + 1) dummyCell).xpos +
        ((window_draw_bindings_cells 0 [("a", "b"), ("c", "d")]).getD
            (2 * 0 + 1) dummyCell).width + 2) :=
  window_draw_bindings_layout [("a", "b"), ("c", "d")] 0 0

/-- C9 (counterexample to the claim as stated): on the pair list
[("a","b"), ("c","d")] the third footer cell (the second key label) does not
start immediately after the second cell's padded width: it starts two
columns later (column 6 instead of 4). -/
theorem window_draw_bindings_adjacent_counterexample :
    2 < (window_draw_bindings [("a", "b"), ("c", "d")]).length ∧
    ((window_draw_bindings [("a", "b"), ("c", "d")]).getD 2 dummyCell).xpos =
      6 ∧
    ((window_draw_bindings [("a", "b"), ("c", "d")]).getD 1 dummyCell).xpos +
      ((window_draw_bindings [("a", "b"), ("c", "d")]).getD 1 dummyCell).width
      = 4 ∧
    ((window_draw_bindings [("a", "b"), ("c", "d")]).getD 2 dummyCell).xpos ≠
      ((window_draw_bindings [("a", "b"), ("c", "d")]).getD 1 dummyCell).xpos
      + ((window_draw_bindings [("a", "b"), ("c", "d")]).getD 1
          dummyCell).width := by
  decide

end Sngrep
